import Mathlib

/-
  Shallow embedding of `src/solitaire_game.py` (repository Soulytear).

  Modelling conventions:
  * Python ints are `ℤ` where user-supplied (row and card indices), `ℕ` for
    suits and ranks (the code only ever constructs suits 0..3, ranks 1..13).
  * `self.rows : list[deque[Card]]` always holds exactly 12 deques, so it is
    embedded as `Fin 12 → List Card`; the head of a deque is the head of the
    list (`appendleft` is `cons`, `pop` removes the last element).
  * The module-level global `DEBUG` (imported from `config`, a file that is
    not part of the sources) is threaded as an explicit `debug : Bool`
    parameter into every function whose source has it in scope.
  * `InvalidMoveError` raises are pure data (`MoveResult.violation`); the
    names of the ten violations follow the specification's taxonomy, in the
    order the messages appear in `check_move_valid`.  An uncaught `IndexError`
    from `src_row[card_idx]` (possible for a negative `card_idx` below
    `-len(src_row)`, which the upper-bound-only check does not reject) is
    modelled as `MoveResult.indexError`.
-/

namespace Soulytear

/-- The ten violation messages raised by `Game.check_move_valid`,
named following the specification's taxonomy (spec section 4.4). -/
inductive Violation
  | RowOutOfBounds
  | CardIndexOutOfBounds
  | CardNotVisible
  | SameRowMove
  | CannotMoveIntoStock
  | ChainIntoFoundation
  | SuitMismatch
  | FoundationRequiresKingFirst
  | NonConsecutiveFoundationMove
  | NonConsecutiveTableauMove
deriving DecidableEq, Repr

/-- Outcome of a move-validation attempt: success, a raised
`InvalidMoveError` carrying a violation, or an uncaught Python `IndexError`
(from indexing `src_row[card_idx]` with an index below `-len(src_row)`). -/
inductive MoveResult
  | ok
  | violation (v : Violation)
  | indexError
deriving DecidableEq, Repr

/-- `Card(suit, rank, visible)` — `@dataclass class Card` (solitaire_game.py
lines 18-25).  The suit is the ordinal 0..3, the rank 1..13. -/
structure Card where
  suit : ℕ
  rank : ℕ
  visible : Bool
deriving DecidableEq, Repr

/-- The board: `self.rows`, a fixed array of 12 card deques. -/
structure Game where
  rows : Fin 12 → List Card

instance : DecidableEq Game := fun a b =>
  decidable_of_iff (a.rows = b.rows) (by cases a; cases b; simp)

/-- Row index after validation `0 <= row <= 11`; on that range it is the
obvious coercion (the `% 12` keeps the function total). -/
def rowIdx (i : ℤ) : Fin 12 := ⟨i.toNat % 12, Nat.mod_lt _ (by omega)⟩

/-- Python sequence indexing `l[i]` with negative-index semantics:
`l[i]` is `l[i + len(l)]` for `i < 0`; out-of-range indices give `none`
(Python raises `IndexError`). -/
def pyGet (l : List Card) (i : ℤ) : Option Card :=
  let j : ℤ := if i < 0 then i + l.length else i
  if j < 0 then none else l.get? j.toNat

/-- Python `deque.rotate(k)`: right-rotation by `k` (left-rotation by `-k`),
taken modulo the length; no-op on the empty deque. -/
def pyRotate (l : List Card) (k : ℤ) : List Card :=
  if l.length = 0 then l
  else l.rotate (((-k) % (l.length : ℤ)).toNat)

/-- `row[0].visible = True`: mark the head card of a row visible
(total: identity on the empty row, which the source never flips). -/
def flipHead : List Card → List Card
  | [] => []
  | c :: cs => Card.mk c.suit c.rank true :: cs

/-- `deck[-1].visible = b`: set the visibility of the last card. -/
def setLastVisible (l : List Card) (b : Bool) : List Card :=
  match l.getLast? with
  | none => l
  | some c => l.dropLast ++ [Card.mk c.suit c.rank b]

/-- `Game.get_shuffled_deck` (lines 79-89): `random.shuffle` is external, so
the shuffled list `rand_nums` (a permutation of `range(0, 52)`) is a
parameter; each number `n` becomes `Card(int(n/13), n%13+1)` whose default
visibility is the `DEBUG` flag (line 22). -/
def get_shuffled_deck (debug : Bool) (rand_nums : List ℕ) : List Card :=
  rand_nums.map (fun n => Card.mk (n / 13) (n % 13 + 1) debug)

/-- The slice assignments of `Game.__init__` (lines 54-61):
row 5 = deck[0:1], row 6 = deck[1:3], row 7 = deck[3:6], row 8 = deck[6:10],
row 9 = deck[10:15], row 10 = deck[15:21], row 11 = deck[21:28],
row 4 = deck[28:], rows 0-3 stay empty. -/
def dealRows (deck : List Card) : Fin 12 → List Card := fun i =>
  if i.val = 5 then deck.take 1
  else if i.val = 6 then (deck.drop 1).take 2
  else if i.val = 7 then (deck.drop 3).take 3
  else if i.val = 8 then (deck.drop 6).take 4
  else if i.val = 9 then (deck.drop 10).take 5
  else if i.val = 10 then (deck.drop 15).take 6
  else if i.val = 11 then (deck.drop 21).take 7
  else if i.val = 4 then deck.drop 28
  else []

/-- `Game.__init__` (lines 48-64): deal the shuffled deck into the 12 rows,
then `for i in range(4, 12): self.rows[i][0].visible = True`. -/
def new_game (debug : Bool) (rand_nums : List ℕ) : Game :=
  let deck := get_shuffled_deck debug rand_nums
  { rows := fun i => if 4 ≤ i.val then flipHead (dealRows deck i) else dealRows deck i }

/-- `Game.draw_card` (lines 91-97): if the stock row (row 4) holds at least
two cards, rotate it left by one, make the new head visible, and set the
previous head's (now last) visibility to the `DEBUG` flag. -/
def draw_card (debug : Bool) (g : Game) : Game :=
  let deck := g.rows 4
  if 2 ≤ deck.length then
    let deck1 := pyRotate deck (-1)
    let deck2 := flipHead deck1
    let deck3 := setLastVisible deck2 debug
    { rows := Function.update g.rows 4 deck3 }
  else g

/-- The tail of `check_move_valid` (lines 160-169), reached for
non-foundation destinations (and by fall-through when a rank above 13 meets
an empty foundation row, which no constructed card has). -/
def tableauCheck (card : Card) (dst_row : List Card) : MoveResult :=
  match dst_row with
  | [] => MoveResult.ok
  | d :: _ =>
    if card.rank ≠ d.rank + 1 then MoveResult.violation Violation.NonConsecutiveTableauMove
    else MoveResult.ok

/-- The checks of `check_move_valid` that run once the selected card is in
hand (source lines 136-169): visibility, same-row, stock-destination,
foundation rules, then the tableau tail. -/
def checkWithCard (g : Game) (from_row to_row card_idx : ℤ) (card : Card) : MoveResult :=
  if card.visible = false then MoveResult.violation Violation.CardNotVisible
  else if from_row = to_row then MoveResult.violation Violation.SameRowMove
  else if to_row = 4 then MoveResult.violation Violation.CannotMoveIntoStock
  else if 0 ≤ to_row ∧ to_row ≤ 3 then
    -- `to_row in [0, 1, 2, 3]`: the foundation-row checks
    if card_idx > 0 then MoveResult.violation Violation.ChainIntoFoundation
    else if (card.suit : ℤ) ≠ to_row then MoveResult.violation Violation.SuitMismatch
    else
      match g.rows (rowIdx to_row) with
      | [] =>
        if card.rank < 13 then MoveResult.violation Violation.FoundationRequiresKingFirst
        else if card.rank = 13 then MoveResult.ok
        else tableauCheck card (g.rows (rowIdx to_row))
      | d :: _ =>
        if card.rank + 1 ≠ d.rank then MoveResult.violation Violation.NonConsecutiveFoundationMove
        else MoveResult.ok
  else tableauCheck card (g.rows (rowIdx to_row))

/-- `Game.check_move_valid` (lines 117-169), checks in source order.  The
global `DEBUG` is in scope in the source module but this function never
reads it.  The source's `src_row`/`dst_row` aliases are inlined as
`g.rows (rowIdx from_row)` / `g.rows (rowIdx to_row)`.
`src_row[card_idx]` is Python indexing (`pyGet`); the preceding bounds
check only rejects `card_idx > len(src_row) - 1`, so an index below
`-len(src_row)` escapes as an `IndexError`. -/
def check_move_valid (debug : Bool) (g : Game) (from_row to_row card_idx : ℤ) : MoveResult :=
  if ¬ (0 ≤ from_row ∧ from_row ≤ 11) then MoveResult.violation Violation.RowOutOfBounds
  else if ¬ (0 ≤ to_row ∧ to_row ≤ 11) then MoveResult.violation Violation.RowOutOfBounds
  else if card_idx > ((g.rows (rowIdx from_row)).length : ℤ) - 1 then
    MoveResult.violation Violation.CardIndexOutOfBounds
  else
    match pyGet (g.rows (rowIdx from_row)) card_idx with
    | none => MoveResult.indexError
    | some card => checkWithCard g from_row to_row card_idx card

/-- The `for i in range(0, num_cards)` loop of `move_card` (lines 110-112):
repeatedly `pop()` the source's last card and `appendleft` it onto the
destination.  A pop from an empty deque (unreachable after validation)
leaves the pair unchanged. -/
def moveLoop : ℕ → List Card × List Card → List Card × List Card
  | 0, sd => sd
  | n + 1, sd =>
    match sd.1.getLast? with
    | none => sd
    | some c => moveLoop n (sd.1.dropLast, c :: sd.2)

/-- `Game.move_card` (lines 99-115): validate first (an invalid move raises
before any mutation), then rotate the source left by `card_idx + 1`, pop
that many cards across to the destination's front, and make the source's
new head visible if any cards remain. -/
def move_card (debug : Bool) (g : Game) (from_row to_row card_idx : ℤ) : MoveResult × Game :=
  match check_move_valid debug g from_row to_row card_idx with
  | MoveResult.ok =>
    let num_cards : ℤ := card_idx + 1
    let src1 := pyRotate (g.rows (rowIdx from_row)) (-num_cards)
    let sd := moveLoop num_cards.toNat (src1, g.rows (rowIdx to_row))
    let src2 := if 0 < sd.1.length then flipHead sd.1 else sd.1
    (MoveResult.ok,
      { rows := Function.update (Function.update g.rows (rowIdx from_row) src2) (rowIdx to_row) sd.2 })
  | r => (r, g)

/-- `Game.check_game_over` (lines 171-173): the foundation rows 0-3 hold at
least 52 cards in total. -/
def check_game_over (g : Game) : Bool :=
  decide (52 ≤ (g.rows 0).length + (g.rows 1).length + (g.rows 2).length + (g.rows 3).length)

/-- The inner loop of `Game.cheat`: `for i in range(13, 0, -1):
rows[suit].appendleft(Card(suit, i, True))` — rank `n` down to rank 1. -/
def cheatLoop (suit : ℕ) : ℕ → List Card → List Card
  | 0, row => row
  | i + 1, row => cheatLoop suit i (Card.mk suit (i + 1) true :: row)

/-- One iteration of the outer loop of `Game.cheat` for a single suit. -/
def cheatSuit (g : Game) (s : Fin 12) : Game :=
  { rows := Function.update g.rows s (cheatLoop s.val 13 (g.rows s)) }

/-- `Game.cheat` (lines 175-180): `for suit in [0, 1, 2, 3]`, prepend the
full suit (rank 13 first, rank 1 last, all visible) to foundation row
`suit`. -/
def cheat (g : Game) : Game :=
  cheatSuit (cheatSuit (cheatSuit (cheatSuit g 0) 1) 2) 3

/-- A draw or move request, the two mutating operations a running game
accepts (besides `cheat`). -/
inductive Op
  | draw
  | move (from_row to_row card_idx : ℤ)

/-- Apply one operation to a game (a rejected move leaves the state as
`move_card` returns it, i.e. unchanged). -/
def applyOp (debug : Bool) (g : Game) : Op → Game
  | Op.draw => draw_card debug g
  | Op.move f t c => (move_card debug g f t c).2

/-- Apply a finite sequence of draw/move operations in order. -/
def applyOps (debug : Bool) (g : Game) (ops : List Op) : Game :=
  ops.foldl (applyOp debug) g

/-- The (suit, rank) content of one row, as a multiset (visibility
forgotten). -/
def projM (l : List Card) : Multiset (ℕ × ℕ) :=
  (l.map (fun c => (c.suit, c.rank)) : List (ℕ × ℕ))

/-- The (suit, rank) multiset of the whole board, across all 12 rows. -/
def boardMultiset (g : Game) : Multiset (ℕ × ℕ) :=
  Finset.univ.sum (fun i : Fin 12 => projM (g.rows i))

/-- The 52 (suit, rank) pairs of a full deck, one per generated card. -/
def fullDeckM : Multiset (ℕ × ℕ) :=
  ((List.range 52).map (fun n => (n / 13, n % 13 + 1)) : List (ℕ × ℕ))

/-- A concrete freshly dealt game: the identity permutation is one possible
output of `random.shuffle`. -/
def dealtGame : Game := new_game false (List.range 52)

/-- A board whose row 5 holds a single visible King of Diamonds (suit 1),
with every other row empty. -/
def gKingDiamond : Game :=
  { rows := fun i => if i.val = 5 then [Card.mk 1 13 true] else [] }

/-- A board whose row 5 holds a single visible King of Clubs (suit 0),
with every other row empty. -/
def gKingClub : Game :=
  { rows := fun i => if i.val = 5 then [Card.mk 0 13 true] else [] }

/-- A board with a visible 7 on row 6 and a visible 6 heading row 7. -/
def gTableau : Game :=
  { rows := fun i =>
      if i.val = 6 then [Card.mk 0 7 true]
      else if i.val = 7 then [Card.mk 1 6 true] else [] }

/-- A board with a two-card chain on row 6 (visible 5 over a hidden 9). -/
def gChain : Game :=
  { rows := fun i => if i.val = 6 then [Card.mk 0 5 true, Card.mk 2 9 false] else [] }

/-! ### Lemmas about the row primitives -/

theorem flipHead_length (l : List Card) : (flipHead l).length = l.length := by
  cases l <;> rfl

theorem flipHead_tail (l : List Card) : (flipHead l).tail = l.tail := by
  cases l <;> rfl

theorem projM_append (l₁ l₂ : List Card) : projM (l₁ ++ l₂) = projM l₁ + projM l₂ := by
  simp [projM]

theorem projM_perm {l₁ l₂ : List Card} (h : l₁.Perm l₂) : projM l₁ = projM l₂ :=
  Multiset.coe_eq_coe.mpr (h.map _)

theorem projM_flipHead (l : List Card) : projM (flipHead l) = projM l := by
  cases l <;> simp [flipHead, projM]

theorem projM_pyRotate (l : List Card) (k : ℤ) : projM (pyRotate l k) = projM l := by
  unfold pyRotate
  split_ifs with h
  · rfl
  · exact projM_perm (List.rotate_perm l _)

theorem projM_setLastVisible (l : List Card) (b : Bool) :
    projM (setLastVisible l b) = projM l := by
  unfold setLastVisible
  rcases l.eq_nil_or_concat with rfl | ⟨L, x, rfl⟩
  · rfl
  · simp [List.getLast?_concat, List.dropLast_concat, projM]

theorem projM_take_drop (l : List Card) (n : ℕ) :
    projM (l.take n) + projM (l.drop n) = projM l := by
  rw [← projM_append, List.take_append_drop]

theorem moveLoop_append (n : ℕ) (a b dst : List Card) (hb : b.length = n) :
    moveLoop n (a ++ b, dst) = (a, b ++ dst) := by
  induction n generalizing b dst with
  | zero =>
    have hbnil : b = [] := List.length_eq_zero.mp hb
    subst hbnil
    simp [moveLoop]
  | succ n ih =>
    rcases b.eq_nil_or_concat with rfl | ⟨bs, x, rfl⟩
    · simp at hb
    · simp only [List.concat_eq_append] at hb ⊢
      have hbs : bs.length = n := by
        simp only [List.length_append, List.length_singleton] at hb
        omega
      have h1 : (a ++ (bs ++ [x])).getLast? = some x := by
        rw [← List.append_assoc]; exact List.getLast?_concat _
      have h2 : (a ++ (bs ++ [x])).dropLast = a ++ bs := by
        rw [← List.append_assoc]; exact List.dropLast_concat
      simp only [moveLoop, h1, h2]
      rw [ih bs (x :: dst) hbs]
      simp [List.append_assoc]

theorem moveLoop_projM (n : ℕ) (sd : List Card × List Card) :
    projM (moveLoop n sd).1 + projM (moveLoop n sd).2 = projM sd.1 + projM sd.2 := by
  induction n generalizing sd with
  | zero => rfl
  | succ n ih =>
    rcases sd with ⟨src, dst⟩
    rcases src.eq_nil_or_concat with rfl | ⟨L, x, rfl⟩
    · simp [moveLoop]
    · simp only [List.concat_eq_append]
      simp only [moveLoop, List.getLast?_concat, List.dropLast_concat]
      rw [ih]
      simp only [projM, List.map_append, List.map_cons, List.map_nil]
      simp [Multiset.singleton_add, add_assoc]

/-! ### Lemmas about the board multiset -/

theorem projM_update (f : Fin 12 → List Card) (a : Fin 12) (l : List Card) :
    (fun i => projM (Function.update f a l i))
      = Function.update (fun i => projM (f i)) a (projM l) := by
  funext j
  rcases eq_or_ne j a with rfl | hja
  · simp
  · simp [Function.update_noteq hja]

theorem boardMultiset_update (g : Game) (a : Fin 12) (l : List Card)
    (h : projM l = projM (g.rows a)) :
    boardMultiset { rows := Function.update g.rows a l } = boardMultiset g := by
  show Finset.univ.sum (fun i => projM (Function.update g.rows a l i)) = _
  rw [show (fun i => projM (Function.update g.rows a l i))
        = Function.update (fun i => projM (g.rows i)) a (projM l) from projM_update _ _ _,
    Finset.sum_update_of_mem (Finset.mem_univ a) (fun i => projM (g.rows i)) (projM l), h,
    Finset.sdiff_singleton_eq_erase]
  exact Finset.add_sum_erase Finset.univ (fun i => projM (g.rows i)) (Finset.mem_univ a)

theorem boardMultiset_update2 (g : Game) (a b : Fin 12) (la lb : List Card) (hab : a ≠ b)
    (h : projM la + projM lb = projM (g.rows a) + projM (g.rows b)) :
    boardMultiset { rows := Function.update (Function.update g.rows a la) b lb }
      = boardMultiset g := by
  show Finset.univ.sum (fun i => projM (Function.update (Function.update g.rows a la) b lb i))
      = Finset.univ.sum (fun i => projM (g.rows i))
  have hmem : a ∈ Finset.univ.erase b := Finset.mem_erase.mpr ⟨hab, Finset.mem_univ a⟩
  rw [projM_update, Finset.sum_update_of_mem (Finset.mem_univ b)
      (fun i => projM (Function.update g.rows a la i)) (projM lb),
    Finset.sdiff_singleton_eq_erase, projM_update,
    Finset.sum_update_of_mem hmem (fun i => projM (g.rows i)) (projM la),
    Finset.sdiff_singleton_eq_erase,
    ← Finset.add_sum_erase _ _ (Finset.mem_univ b), ← Finset.add_sum_erase _ _ hmem,
    ← add_assoc, ← add_assoc, add_comm (projM lb) (projM la), h,
    add_comm (projM (g.rows a)) (projM (g.rows b))]

/-! ### Lemmas about indexing -/

theorem rowIdx_ne {a b : ℤ} (ha1 : 0 ≤ a) (ha2 : a ≤ 11) (hb1 : 0 ≤ b) (hb2 : b ≤ 11)
    (hab : a ≠ b) : rowIdx a ≠ rowIdx b := by
  intro h
  have hv := congrArg Fin.val h
  simp only [rowIdx] at hv
  omega

theorem pyGet_eq_get? {l : List Card} {i : ℤ} (h : 0 ≤ i) : pyGet l i = l.get? i.toNat := by
  simp [pyGet, show ¬ i < 0 by omega]

theorem pyGet_some {l : List Card} {i : ℤ} (h0 : 0 ≤ i) (h1 : i ≤ (l.length : ℤ) - 1) :
    ∃ cd, pyGet l i = some cd := by
  rw [pyGet_eq_get? h0]
  cases hg : l.get? i.toNat with
  | none =>
    rw [List.get?_eq_none] at hg
    omega
  | some cd => exact ⟨cd, rfl⟩

theorem pyGet_zero (l : List Card) : pyGet l 0 = l.head? := by
  rw [pyGet_eq_get? le_rfl]
  exact List.get?_zero l

/-! ### Step characterizations of `check_move_valid` -/

theorem check_eq_row_oob₁ {debug : Bool} {g : Game} {f t c : ℤ}
    (hf : ¬ (0 ≤ f ∧ f ≤ 11)) :
    check_move_valid debug g f t c = MoveResult.violation Violation.RowOutOfBounds := by
  unfold check_move_valid
  rw [if_pos hf]

theorem check_eq_row_oob₂ {debug : Bool} {g : Game} {f t c : ℤ}
    (hf : 0 ≤ f ∧ f ≤ 11) (ht : ¬ (0 ≤ t ∧ t ≤ 11)) :
    check_move_valid debug g f t c = MoveResult.violation Violation.RowOutOfBounds := by
  unfold check_move_valid
  rw [if_neg (not_not_intro hf), if_pos ht]

theorem check_eq_card_oob {debug : Bool} {g : Game} {f t c : ℤ}
    (hf : 0 ≤ f ∧ f ≤ 11) (ht : 0 ≤ t ∧ t ≤ 11)
    (hc : c > ((g.rows (rowIdx f)).length : ℤ) - 1) :
    check_move_valid debug g f t c = MoveResult.violation Violation.CardIndexOutOfBounds := by
  unfold check_move_valid
  rw [if_neg (not_not_intro hf), if_neg (not_not_intro ht), if_pos hc]

theorem check_eq_indexError {debug : Bool} {g : Game} {f t c : ℤ}
    (hf : 0 ≤ f ∧ f ≤ 11) (ht : 0 ≤ t ∧ t ≤ 11)
    (hc : ¬ c > ((g.rows (rowIdx f)).length : ℤ) - 1)
    (hcard : pyGet (g.rows (rowIdx f)) c = none) :
    check_move_valid debug g f t c = MoveResult.indexError := by
  unfold check_move_valid
  rw [if_neg (not_not_intro hf), if_neg (not_not_intro ht), if_neg hc, hcard]

theorem check_eq_withCard {debug : Bool} {g : Game} {f t c : ℤ} {card : Card}
    (hf : 0 ≤ f ∧ f ≤ 11) (ht : 0 ≤ t ∧ t ≤ 11)
    (hc : ¬ c > ((g.rows (rowIdx f)).length : ℤ) - 1)
    (hcard : pyGet (g.rows (rowIdx f)) c = some card) :
    check_move_valid debug g f t c = checkWithCard g f t c card := by
  unfold check_move_valid
  rw [if_neg (not_not_intro hf), if_neg (not_not_intro ht), if_neg hc, hcard]

/-! ### Claims C3, C4: foundation and tableau ordering -/

/-- Claim C3, counterexample to the claim as stated: on a board whose
foundation row 0 is empty and whose row 5 holds a single visible card of
rank 13 (a King of Diamonds, suit 1), the move (5, 0, 0) does not succeed
— it fails with `SuitMismatch`, because the suit check precedes the
empty-foundation rank check and applies to empty foundations too. -/
theorem C3_counterexample :
    gKingDiamond.rows (rowIdx 0) = [] ∧
    pyGet (gKingDiamond.rows (rowIdx 5)) 0 = some (Card.mk 1 13 true) ∧
    check_move_valid false gKingDiamond 5 0 0 = MoveResult.violation Violation.SuitMismatch ∧
    check_move_valid false gKingDiamond 5 0 0 ≠ MoveResult.ok := by
  decide

/-- Claim C3 (amended): with the generic validation steps passing (rows in
bounds, an existing visible selected card of rank at most 13, distinct
rows) and a foundation destination (rows 0-3), the move succeeds iff it
moves a single card (card_index 0) whose suit ordinal equals the
destination row index, and whose rank is 13 when the foundation row is
empty, or one below the foundation row's head rank when it is not. -/
theorem C3_foundation_ordering (debug : Bool) (g : Game) (f t c : ℤ) (card : Card)
    (hf : 0 ≤ f ∧ f ≤ 11) (ht : 0 ≤ t ∧ t ≤ 3)
    (hc0 : 0 ≤ c) (hcb : c ≤ ((g.rows (rowIdx f)).length : ℤ) - 1)
    (hcard : pyGet (g.rows (rowIdx f)) c = some card)
    (hvis : card.visible = true) (hne : f ≠ t) (hrank : card.rank ≤ 13) :
    check_move_valid debug g f t c = MoveResult.ok ↔
      c = 0 ∧ (card.suit : ℤ) = t ∧
        ((g.rows (rowIdx t) = [] ∧ card.rank = 13) ∨
          (∃ d rest, g.rows (rowIdx t) = d :: rest ∧ card.rank + 1 = d.rank)) := by
  rw [check_eq_withCard hf ⟨ht.1, by omega⟩ (by omega) hcard]
  unfold checkWithCard
  rw [if_neg (by simp [hvis]), if_neg hne, if_neg (show ¬ t = 4 by omega), if_pos ht]
  by_cases hcpos : c > 0
  · rw [if_pos hcpos]
    simp only [iff_def]
    constructor
    · intro habs; exact absurd habs (by simp)
    · rintro ⟨h0, -⟩; omega
  · have hc : c = 0 := by omega
    subst hc
    rw [if_neg (by omega)]
    by_cases hsuit : (card.suit : ℤ) = t
    · rw [if_neg (not_not_intro hsuit)]
      cases hdst : g.rows (rowIdx t) with
      | nil =>
        by_cases hr : card.rank < 13
        · rw [if_pos hr]
          constructor
          · intro habs; exact absurd habs (by simp)
          · rintro ⟨-, -, ⟨-, h13⟩ | ⟨d, rest, habs, -⟩⟩
            · omega
            · exact List.noConfusion habs
        · have h13 : card.rank = 13 := by omega
          rw [if_neg hr, if_pos h13]
          simp [hsuit, h13]
      | cons d rest =>
        dsimp only []
        by_cases hrk : card.rank + 1 = d.rank
        · rw [if_neg (not_not_intro hrk)]
          simp [hsuit, hrk]
        · rw [if_pos hrk]
          constructor
          · intro habs; exact absurd habs (by simp)
          · rintro ⟨-, -, ⟨habs, -⟩ | ⟨d', rest', hcons, hr'⟩⟩
            · exact List.noConfusion habs
            · rw [List.cons.injEq] at hcons
              exact absurd (hcons.1 ▸ hr') hrk
    · rw [if_pos hsuit]
      constructor
      · intro habs; exact absurd habs (by simp)
      · rintro ⟨-, hs, -⟩; exact absurd hs hsuit

/-- Witness for C3's amended theorem: moving a visible King of Clubs from
row 5 onto the empty Clubs foundation row 0 is accepted. -/
theorem C3_witness :
    check_move_valid false gKingClub 5 0 0 = MoveResult.ok ↔
      (0 : ℤ) = 0 ∧ ((Card.mk 0 13 true).suit : ℤ) = 0 ∧
        ((gKingClub.rows (rowIdx 0) = [] ∧ (Card.mk 0 13 true).rank = 13) ∨
          (∃ d rest, gKingClub.rows (rowIdx 0) = d :: rest ∧
            (Card.mk 0 13 true).rank + 1 = d.rank)) :=
  C3_foundation_ordering false gKingClub 5 0 0 (Card.mk 0 13 true)
    (by decide) (by decide) (by decide) (by decide) (by decide) (by decide) (by decide)
    (by decide)

/-- Claim C4: with the generic validation steps passing (rows in bounds,
an existing visible selected card, distinct rows) and a tableau
destination (rows 5-11), the move succeeds iff the destination row is
empty (unconditionally legal) or the moved card's rank is one above the
destination head's rank — no suit or color constraint. -/
theorem C4_tableau_ordering (debug : Bool) (g : Game) (f t c : ℤ) (card : Card)
    (hf : 0 ≤ f ∧ f ≤ 11) (ht : 5 ≤ t ∧ t ≤ 11)
    (hc0 : 0 ≤ c) (hcb : c ≤ ((g.rows (rowIdx f)).length : ℤ) - 1)
    (hcard : pyGet (g.rows (rowIdx f)) c = some card)
    (hvis : card.visible = true) (hne : f ≠ t) :
    check_move_valid debug g f t c = MoveResult.ok ↔
      (g.rows (rowIdx t) = [] ∨
        (∃ d rest, g.rows (rowIdx t) = d :: rest ∧ card.rank = d.rank + 1)) := by
  rw [check_eq_withCard hf ⟨by omega, ht.2⟩ (by omega) hcard]
  unfold checkWithCard
  rw [if_neg (by simp [hvis]), if_neg hne, if_neg (show ¬ t = 4 by omega),
    if_neg (show ¬ (0 ≤ t ∧ t ≤ 3) by omega)]
  unfold tableauCheck
  cases hdst : g.rows (rowIdx t) with
  | nil => simp
  | cons d rest =>
    dsimp only []
    by_cases hrk : card.rank = d.rank + 1
    · rw [if_neg (not_not_intro hrk)]
      simp [hrk]
    · rw [if_pos hrk]
      constructor
      · intro habs; exact absurd habs (by simp)
      · rintro (habs | ⟨d', rest', hcons, hr'⟩)
        · exact List.noConfusion habs
        · rw [List.cons.injEq] at hcons
          exact absurd (hcons.1 ▸ hr') hrk

/-- Witness for C4: the visible 7 on row 6 moves onto the 6 heading row 7. -/
theorem C4_witness :
    check_move_valid false gTableau 6 7 0 = MoveResult.ok ↔
      (gTableau.rows (rowIdx 7) = [] ∨
        (∃ d rest, gTableau.rows (rowIdx 7) = d :: rest ∧
          (Card.mk 0 7 true).rank = d.rank + 1)) :=
  C4_tableau_ordering false gTableau 6 7 0 (Card.mk 0 7 true)
    (by decide) (by decide) (by decide) (by decide) (by decide) (by decide) (by decide)

/-! ### Claims C6, C7, C8 -/

/-- Claim C6: a move request that validation rejects with a violation
leaves the whole board — every row and every visibility flag — unchanged:
`move_card` returns the violation paired with the original state. -/
theorem C6_move_atomicity (debug : Bool) (g : Game) (f t c : ℤ) (v : Violation)
    (h : check_move_valid debug g f t c = MoveResult.violation v) :
    move_card debug g f t c = (MoveResult.violation v, g) := by
  unfold move_card
  rw [h]

/-- Witness for C6: on the dealt board, moving from the empty foundation
row 0 is rejected with `CardIndexOutOfBounds` and changes nothing. -/
theorem C6_witness :
    move_card false dealtGame 0 0 0
      = (MoveResult.violation Violation.CardIndexOutOfBounds, dealtGame) :=
  C6_move_atomicity false dealtGame 0 0 0 Violation.CardIndexOutOfBounds (by decide)

/-- Claim C7, counterexample to the claim as stated: on the dealt board
(stock row non-empty with a visible head), `move(4, 0, 4)` fails with
`SameRowMove`, not `CannotMoveIntoStock` — the same-row check runs before
the stock-destination check. -/
theorem C7_counterexample :
    dealtGame.rows (rowIdx 4) ≠ [] ∧
    (dealtGame.rows (rowIdx 4)).head?.elim false Card.visible = true ∧
    check_move_valid false dealtGame 4 4 0 = MoveResult.violation Violation.SameRowMove ∧
    check_move_valid false dealtGame 4 4 0 ≠ MoveResult.violation Violation.CannotMoveIntoStock := by
  decide

/-- Claim C7 (amended): for every state whose stock row is non-empty with
a visible head, the request `move(4, 0, 4)` fails with the `SameRowMove`
violation (the same-row check precedes the into-stock check, so
`CannotMoveIntoStock` is only reachable with `from_row ≠ 4`). -/
theorem C7_move_into_stock (debug : Bool) (g : Game)
    (hne : g.rows (rowIdx 4) ≠ [])
    (hvis : (g.rows (rowIdx 4)).head?.elim false Card.visible = true) :
    check_move_valid debug g 4 4 0 = MoveResult.violation Violation.SameRowMove := by
  obtain ⟨hd, tl, hcons⟩ := List.exists_cons_of_ne_nil hne
  have hlen : 1 ≤ (g.rows (rowIdx 4)).length := by rw [hcons]; simp
  have hget : pyGet (g.rows (rowIdx 4)) 0 = some hd := by
    rw [pyGet_zero, hcons]; rfl
  have hv : hd.visible = true := by
    rw [hcons] at hvis
    simpa using hvis
  rw [check_eq_withCard (by omega) (by omega) (by omega) hget]
  unfold checkWithCard
  rw [if_neg (by simp [hv]), if_pos rfl]

/-- Witness for C7's amended theorem at the dealt board. -/
theorem C7_witness :
    check_move_valid false dealtGame 4 4 0 = MoveResult.violation Violation.SameRowMove :=
  C7_move_into_stock false dealtGame (by decide) (by decide)

/-- Claim C8: the validation verdict is a function of the board and the
move only — flipping the global debug flag (which only influences card
construction defaults and `draw_card`'s re-hiding of the old stock head)
never changes it. -/
theorem C8_debug_noninterference (g : Game) (f t c : ℤ) (d₁ d₂ : Bool) :
    check_move_valid d₁ g f t c = check_move_valid d₂ g f t c := rfl

/-! ### Facts extracted from a successful validation -/

theorem checkWithCard_ne_rows {g : Game} {f t c : ℤ} {card : Card}
    (h : checkWithCard g f t c card = MoveResult.ok) : f ≠ t := by
  intro heq
  unfold checkWithCard at h
  by_cases hv : card.visible = false
  · rw [if_pos hv] at h
    exact MoveResult.noConfusion h
  · rw [if_neg hv, if_pos heq] at h
    exact MoveResult.noConfusion h

theorem check_ok_facts {debug : Bool} {g : Game} {f t c : ℤ}
    (h : check_move_valid debug g f t c = MoveResult.ok) :
    (0 ≤ f ∧ f ≤ 11) ∧ (0 ≤ t ∧ t ≤ 11) ∧ f ≠ t ∧
      c ≤ ((g.rows (rowIdx f)).length : ℤ) - 1 := by
  by_cases hf : 0 ≤ f ∧ f ≤ 11
  · by_cases ht : 0 ≤ t ∧ t ≤ 11
    · by_cases hcb : c > ((g.rows (rowIdx f)).length : ℤ) - 1
      · rw [check_eq_card_oob hf ht hcb] at h
        exact MoveResult.noConfusion h
      · cases hcard : pyGet (g.rows (rowIdx f)) c with
        | none =>
          rw [check_eq_indexError hf ht hcb hcard] at h
          exact MoveResult.noConfusion h
        | some card =>
          rw [check_eq_withCard hf ht hcb hcard] at h
          exact ⟨hf, ht, checkWithCard_ne_rows h, by omega⟩
    · rw [check_eq_row_oob₂ hf ht] at h
      exact MoveResult.noConfusion h
  · rw [check_eq_row_oob₁ hf] at h
    exact MoveResult.noConfusion h

/-! ### The chain relocation performed by a legal move -/

theorem moveChain (l dst : List Card) (m : ℕ) (h1 : 1 ≤ m) (h2 : m ≤ l.length) :
    moveLoop m (pyRotate l (-(m : ℤ)), dst) = (l.drop m, l.take m ++ dst) := by
  have hl0 : l.length ≠ 0 := by omega
  rcases eq_or_lt_of_le h2 with heq | hlt
  · have hrot : pyRotate l (-(m : ℤ)) = l := by
      unfold pyRotate
      rw [if_neg hl0, neg_neg]
      have hmod : (m : ℤ) % (l.length : ℤ) = 0 := by
        rw [heq]
        exact Int.emod_self
      rw [hmod]
      exact List.rotate_zero l
    rw [hrot]
    have hall := moveLoop_append m [] l dst (by omega)
    simp only [List.nil_append] at hall
    rw [hall, heq]
    simp [List.drop_length, List.take_length]
  · have hrot : pyRotate l (-(m : ℤ)) = l.drop m ++ l.take m := by
      unfold pyRotate
      rw [if_neg hl0, neg_neg]
      have hmod : (m : ℤ) % (l.length : ℤ) = m := Int.emod_eq_of_lt (by omega) (by omega)
      rw [hmod, Int.toNat_natCast]
      exact List.rotate_eq_drop_append_take (le_of_lt hlt)
    have htk : (l.take m).length = m := by
      rw [List.length_take]
      omega
    rw [hrot, moveLoop_append m (l.drop m) (l.take m) dst htk]

/-- Claim C5: a move that validation accepts relocates exactly the first
`card_index + 1` cards of the source row, in order, to the front of the
destination row; the source keeps its remaining cards in order with its
new head (if any) made visible. -/
theorem C5_move_postcondition (debug : Bool) (g : Game) (f t c : ℤ)
    (hc0 : 0 ≤ c) (hok : check_move_valid debug g f t c = MoveResult.ok) :
    (move_card debug g f t c).2.rows (rowIdx t)
        = (g.rows (rowIdx f)).take (c + 1).toNat ++ g.rows (rowIdx t)
    ∧ (move_card debug g f t c).2.rows (rowIdx f)
        = flipHead ((g.rows (rowIdx f)).drop (c + 1).toNat)
    ∧ (∀ cd, ((move_card debug g f t c).2.rows (rowIdx f)).head? = some cd →
        cd.visible = true) := by
  obtain ⟨hf, ht, hne, hcb⟩ := check_ok_facts hok
  have hft : rowIdx f ≠ rowIdx t := rowIdx_ne hf.1 hf.2 ht.1 ht.2 hne
  have h1 : 1 ≤ (c + 1).toNat := by omega
  have h2 : (c + 1).toNat ≤ (g.rows (rowIdx f)).length := by omega
  have hchain := moveChain (g.rows (rowIdx f)) (g.rows (rowIdx t)) (c + 1).toNat h1 h2
  rw [show (((c + 1).toNat : ℤ)) = c + 1 by omega] at hchain
  have hrows2 : (move_card debug g f t c).2.rows
      = Function.update
          (Function.update g.rows (rowIdx f)
            (flipHead ((g.rows (rowIdx f)).drop (c + 1).toNat)))
          (rowIdx t)
          ((g.rows (rowIdx f)).take (c + 1).toNat ++ g.rows (rowIdx t)) := by
    simp only [move_card, hok]
    rw [hchain]
    cases hdrop : (g.rows (rowIdx f)).drop (c + 1).toNat with
    | nil => simp [flipHead]
    | cons x xs => simp [flipHead]
  refine ⟨?_, ?_, ?_⟩
  · rw [hrows2, Function.update_same]
  · rw [hrows2, Function.update_noteq hft, Function.update_same]
  · rw [hrows2, Function.update_noteq hft, Function.update_same]
    intro cd hcd
    cases hdrop : (g.rows (rowIdx f)).drop (c + 1).toNat with
    | nil =>
      rw [hdrop] at hcd
      exact Option.noConfusion hcd
    | cons x xs =>
      rw [hdrop] at hcd
      simp only [flipHead, List.head?_cons] at hcd
      injection hcd with hcd'
      rw [← hcd']

/-- Witness for C5: moving the visible head of the two-card row 6 onto the
empty row 7 transfers one card and flips the hidden 9 face up. -/
theorem C5_witness :
    (move_card false gChain 6 7 0).2.rows (rowIdx 7)
        = (gChain.rows (rowIdx 6)).take ((0 : ℤ) + 1).toNat ++ gChain.rows (rowIdx 7)
    ∧ (move_card false gChain 6 7 0).2.rows (rowIdx 6)
        = flipHead ((gChain.rows (rowIdx 6)).drop ((0 : ℤ) + 1).toNat)
    ∧ (∀ cd, ((move_card false gChain 6 7 0).2.rows (rowIdx 6)).head? = some cd →
        cd.visible = true) :=
  C5_move_postcondition false gChain 6 7 0 (by decide) (by decide)

/-! ### Claim C9: totality of the failure taxonomy -/

/-- Claim C9, counterexample to the claim as stated: on the dealt board,
the request `move(from_row 0, to_row 5, card_index -1)` escapes the
violation taxonomy entirely — Python indexes `src_row[-1]` on the empty
foundation row 0 (the bounds check only rejects indices above
`len - 1`) and raises an uncaught `IndexError`. -/
theorem C9_counterexample :
    check_move_valid false dealtGame 0 5 (-1) = MoveResult.indexError ∧
    move_card false dealtGame 0 5 (-1) = (MoveResult.indexError, dealtGame) := by
  decide

theorem checkWithCard_cases (g : Game) (f t c : ℤ) (card : Card) :
    checkWithCard g f t c card = MoveResult.ok
      ∨ ∃ v, v ≠ Violation.RowOutOfBounds ∧ v ≠ Violation.CardIndexOutOfBounds ∧
          checkWithCard g f t c card = MoveResult.violation v := by
  unfold checkWithCard tableauCheck
  cases hdst : g.rows (rowIdx t) <;> dsimp only [] <;> split_ifs <;>
    first
      | exact Or.inl rfl
      | (refine Or.inr ⟨_, ?_, ?_, rfl⟩ <;> decide)

/-- Claim C9 (amended): for every board and every non-negative
`card_index` (the interface's declared domain), validation yields success
or one of the enumerated violations, and — with both rows in bounds — the
`CardIndexOutOfBounds` verdict occurs exactly when `card_index` exceeds
`len(from_row) - 1`.  (For `card_index < -len(from_row)` the code instead
raises an `IndexError` outside the taxonomy, per the counterexample.) -/
theorem C9_totality (debug : Bool) (g : Game) (f t c : ℤ) (hc0 : 0 ≤ c) :
    (check_move_valid debug g f t c = MoveResult.ok
      ∨ ∃ v, check_move_valid debug g f t c = MoveResult.violation v)
    ∧ ((0 ≤ f ∧ f ≤ 11) → (0 ≤ t ∧ t ≤ 11) →
        (check_move_valid debug g f t c = MoveResult.violation Violation.CardIndexOutOfBounds
          ↔ c > ((g.rows (rowIdx f)).length : ℤ) - 1)) := by
  constructor
  · by_cases hf : 0 ≤ f ∧ f ≤ 11
    · by_cases ht : 0 ≤ t ∧ t ≤ 11
      · by_cases hcb : c > ((g.rows (rowIdx f)).length : ℤ) - 1
        · exact Or.inr ⟨_, check_eq_card_oob hf ht hcb⟩
        · obtain ⟨card, hcard⟩ := @pyGet_some (g.rows (rowIdx f)) c hc0 (by omega)
          rw [check_eq_withCard hf ht hcb hcard]
          rcases checkWithCard_cases g f t c card with h | ⟨v, -, -, h⟩
          · exact Or.inl h
          · exact Or.inr ⟨v, h⟩
      · exact Or.inr ⟨_, check_eq_row_oob₂ hf ht⟩
    · exact Or.inr ⟨_, check_eq_row_oob₁ hf⟩
  · intro hf ht
    constructor
    · intro hciob
      by_contra hcb
      obtain ⟨card, hcard⟩ := @pyGet_some (g.rows (rowIdx f)) c hc0 (by omega)
      rw [check_eq_withCard hf ht hcb hcard] at hciob
      rcases checkWithCard_cases g f t c card with h | ⟨v, -, hvne, h⟩
      · rw [h] at hciob
        exact MoveResult.noConfusion hciob
      · rw [h] at hciob
        injection hciob with hv
        exact hvne hv
    · intro hcb
      exact check_eq_card_oob hf ht hcb

/-! ### Claim C1: card conservation -/

theorem length_get_shuffled_deck (debug : Bool) (rn : List ℕ) :
    (get_shuffled_deck debug rn).length = rn.length := List.length_map _ _

theorem deck_hidden (rn : List ℕ) :
    ∀ cd ∈ get_shuffled_deck false rn, cd.visible = false := by
  intro cd hcd
  obtain ⟨n, -, rfl⟩ := List.mem_map.mp hcd
  rfl

theorem projM_dealt_deck {debug : Bool} {rn : List ℕ} (h : rn.Perm (List.range 52)) :
    projM (get_shuffled_deck debug rn) = fullDeckM := by
  unfold projM get_shuffled_deck fullDeckM
  rw [List.map_map]
  exact Multiset.coe_eq_coe.mpr (h.map _)

/-- The seven tableau slices and the stock slice repartition the deck. -/
theorem projM_slices (deck : List Card) :
    projM (deck.take 1) + (projM ((deck.drop 1).take 2) + (projM ((deck.drop 3).take 3)
      + (projM ((deck.drop 6).take 4) + (projM ((deck.drop 10).take 5)
      + (projM ((deck.drop 15).take 6) + (projM ((deck.drop 21).take 7)
      + projM (deck.drop 28))))))) = projM deck := by
  have e1 := (projM_take_drop deck 1).symm
  have e2 := (projM_take_drop (deck.drop 1) 2).symm
  rw [List.drop_drop] at e2
  have e3 := (projM_take_drop (deck.drop 3) 3).symm
  rw [List.drop_drop] at e3
  have e4 := (projM_take_drop (deck.drop 6) 4).symm
  rw [List.drop_drop] at e4
  have e5 := (projM_take_drop (deck.drop 10) 5).symm
  rw [List.drop_drop] at e5
  have e6 := (projM_take_drop (deck.drop 15) 6).symm
  rw [List.drop_drop] at e6
  have e7 := (projM_take_drop (deck.drop 21) 7).symm
  rw [List.drop_drop] at e7
  rw [e1, e2, e3, e4, e5, e6, e7]

theorem boardMultiset_new_game (debug : Bool) (rn : List ℕ)
    (h : rn.Perm (List.range 52)) :
    boardMultiset (new_game debug rn) = fullDeckM := by
  have hrows : ∀ i : Fin 12, projM ((new_game debug rn).rows i)
      = projM (dealRows (get_shuffled_deck debug rn) i) := by
    intro i
    show projM (if 4 ≤ i.val then flipHead (dealRows _ i) else dealRows _ i) = _
    split_ifs with h4
    · exact projM_flipHead _
    · rfl
  unfold boardMultiset
  rw [Finset.sum_congr rfl (fun i _ => hrows i), ← projM_dealt_deck h,
    ← projM_slices (get_shuffled_deck debug rn)]
  norm_num [Fin.sum_univ_succ, dealRows]
  try abel

theorem boardMultiset_draw (debug : Bool) (g : Game) :
    boardMultiset (draw_card debug g) = boardMultiset g := by
  unfold draw_card
  dsimp only []
  split_ifs with h2
  · exact boardMultiset_update g 4 _
      (by rw [projM_setLastVisible, projM_flipHead, projM_pyRotate])
  · rfl

theorem boardMultiset_move (debug : Bool) (g : Game) (f t c : ℤ) :
    boardMultiset (move_card debug g f t c).2 = boardMultiset g := by
  cases hres : check_move_valid debug g f t c with
  | ok =>
    obtain ⟨hf, ht, hne, hcb⟩ := check_ok_facts hres
    have hft := rowIdx_ne hf.1 hf.2 ht.1 ht.2 hne
    simp only [move_card, hres]
    apply boardMultiset_update2 g _ _ _ _ hft
    have hml := moveLoop_projM (c + 1).toNat
      (pyRotate (g.rows (rowIdx f)) (-(c + 1)), g.rows (rowIdx t))
    have hsrc2 : projM
        (if 0 < (moveLoop (c + 1).toNat
            (pyRotate (g.rows (rowIdx f)) (-(c + 1)), g.rows (rowIdx t))).1.length
          then flipHead (moveLoop (c + 1).toNat
            (pyRotate (g.rows (rowIdx f)) (-(c + 1)), g.rows (rowIdx t))).1
          else (moveLoop (c + 1).toNat
            (pyRotate (g.rows (rowIdx f)) (-(c + 1)), g.rows (rowIdx t))).1)
        = projM (moveLoop (c + 1).toNat
            (pyRotate (g.rows (rowIdx f)) (-(c + 1)), g.rows (rowIdx t))).1 := by
      split_ifs with hlen
      · exact projM_flipHead _
      · rfl
    rw [hsrc2, hml, projM_pyRotate]
  | violation v => simp [move_card, hres]
  | indexError => simp [move_card, hres]

theorem boardMultiset_applyOps (debug : Bool) (g : Game) (ops : List Op) :
    boardMultiset (applyOps debug g ops) = boardMultiset g := by
  induction ops generalizing g with
  | nil => rfl
  | cons op ops ih =>
    show boardMultiset (applyOps debug (applyOp debug g op) ops) = _
    rw [ih]
    cases op with
    | draw => exact boardMultiset_draw debug g
    | move f t c => exact boardMultiset_move debug g f t c

theorem fullDeckM_nodup : fullDeckM.Nodup := by decide

theorem fullDeckM_mem (p : ℕ × ℕ) :
    p ∈ fullDeckM ↔ p.1 ≤ 3 ∧ 1 ≤ p.2 ∧ p.2 ≤ 13 := by
  unfold fullDeckM
  rw [Multiset.mem_coe, List.mem_map]
  constructor
  · rintro ⟨n, hn, rfl⟩
    rw [List.mem_range] at hn
    refine ⟨?_, ?_, ?_⟩ <;> omega
  · rintro ⟨h1, h2, h3⟩
    refine ⟨13 * p.1 + (p.2 - 1), ?_, ?_⟩
    · rw [List.mem_range]
      omega
    · rcases p with ⟨s, r⟩
      rw [Prod.mk.injEq]
      constructor <;> omega

/-- Claim C1: from any freshly dealt game, after any finite sequence of
draw and move requests (with arbitrary integer arguments), the (suit,
rank) multiset over all 12 rows is still the full deck: the 52 distinct
suit-rank combinations, each exactly once. -/
theorem C1_card_conservation (debug : Bool) (rn : List ℕ)
    (h : rn.Perm (List.range 52)) (ops : List Op) :
    boardMultiset (applyOps debug (new_game debug rn) ops) = fullDeckM
    ∧ fullDeckM.Nodup
    ∧ (∀ p : ℕ × ℕ, p ∈ fullDeckM ↔ p.1 ≤ 3 ∧ 1 ≤ p.2 ∧ p.2 ≤ 13) :=
  ⟨(boardMultiset_applyOps debug _ ops).trans (boardMultiset_new_game debug rn h),
    fullDeckM_nodup, fullDeckM_mem⟩

/-- Witness for C1 at the identity shuffle with one draw and one move. -/
theorem C1_witness :
    boardMultiset (applyOps false (new_game false (List.range 52))
        [Op.draw, Op.move 5 6 0]) = fullDeckM
    ∧ fullDeckM.Nodup
    ∧ (∀ p : ℕ × ℕ, p ∈ fullDeckM ↔ p.1 ≤ 3 ∧ 1 ≤ p.2 ∧ p.2 ≤ 13) :=
  C1_card_conservation false (List.range 52) (List.Perm.refl _) [Op.draw, Op.move 5 6 0]

/-! ### Claim C2: deal shape -/

theorem dealRows_length (rn : List ℕ) (h : rn.Perm (List.range 52)) (i : Fin 12) :
    (dealRows (get_shuffled_deck false rn) i).length
      = [0, 0, 0, 0, 24, 1, 2, 3, 4, 5, 6, 7].getD i.val 0 := by
  have hdl : (get_shuffled_deck false rn).length = 52 := by
    rw [length_get_shuffled_deck, h.length_eq, List.length_range]
  fin_cases i <;> simp +decide [dealRows, hdl]

theorem dealRows_subset (deck : List Card) (i : Fin 12) :
    ∀ cd ∈ dealRows deck i, cd ∈ deck := by
  intro cd hcd
  unfold dealRows at hcd
  split_ifs at hcd <;>
    first
      | exact List.mem_of_mem_take hcd
      | exact List.mem_of_mem_drop (List.mem_of_mem_take hcd)
      | exact List.mem_of_mem_drop hcd
      | simp at hcd

theorem flipHead_head_visible {l : List Card} (hne : l ≠ []) :
    ∃ cd rest, flipHead l = cd :: rest ∧ cd.visible = true := by
  obtain ⟨x, xs, rfl⟩ := List.exists_cons_of_ne_nil hne
  exact ⟨Card.mk x.suit x.rank true, xs, rfl, rfl⟩

/-- Claim C2: immediately after the deal (debug flag off, the display-only
override being out of rule scope), the 12 row lengths are exactly
[0,0,0,0,24,1,2,3,4,5,6,7], the head of every row 4-11 is visible, and
every non-head card is hidden. -/
theorem C2_deal_shape (rn : List ℕ) (h : rn.Perm (List.range 52)) :
    (∀ i : Fin 12, ((new_game false rn).rows i).length
        = [0, 0, 0, 0, 24, 1, 2, 3, 4, 5, 6, 7].getD i.val 0)
    ∧ (∀ i : Fin 12, 4 ≤ i.val →
        ∃ cd rest, (new_game false rn).rows i = cd :: rest ∧ cd.visible = true)
    ∧ (∀ i : Fin 12, ∀ cd ∈ ((new_game false rn).rows i).tail, cd.visible = false) := by
  refine ⟨?_, ?_, ?_⟩
  · intro i
    show (if 4 ≤ i.val then flipHead (dealRows (get_shuffled_deck false rn) i)
        else dealRows (get_shuffled_deck false rn) i).length = _
    split_ifs with h4
    · rw [flipHead_length, dealRows_length rn h i]
    · rw [dealRows_length rn h i]
  · intro i hi
    have hrow : (new_game false rn).rows i
        = flipHead (dealRows (get_shuffled_deck false rn) i) := by
      show (if 4 ≤ i.val then flipHead (dealRows (get_shuffled_deck false rn) i)
          else dealRows (get_shuffled_deck false rn) i) = _
      rw [if_pos hi]
    rw [hrow]
    apply flipHead_head_visible
    apply List.ne_nil_of_length_pos
    rw [dealRows_length rn h i]
    fin_cases i <;> first | exact absurd hi (by decide) | decide
  · intro i cd hcd
    have htail : ((new_game false rn).rows i).tail
        = (dealRows (get_shuffled_deck false rn) i).tail := by
      show (if 4 ≤ i.val then flipHead (dealRows (get_shuffled_deck false rn) i)
          else dealRows (get_shuffled_deck false rn) i).tail = _
      split_ifs with h4
      · exact flipHead_tail _
      · rfl
    rw [htail] at hcd
    exact deck_hidden rn cd (dealRows_subset _ i cd (List.tail_subset _ hcd))

/-- Witness for C2 at the identity shuffle. -/
theorem C2_witness :
    (∀ i : Fin 12, ((new_game false (List.range 52)).rows i).length
        = [0, 0, 0, 0, 24, 1, 2, 3, 4, 5, 6, 7].getD i.val 0)
    ∧ (∀ i : Fin 12, 4 ≤ i.val →
        ∃ cd rest, (new_game false (List.range 52)).rows i = cd :: rest
          ∧ cd.visible = true)
    ∧ (∀ i : Fin 12, ∀ cd ∈ ((new_game false (List.range 52)).rows i).tail,
        cd.visible = false) :=
  C2_deal_shape (List.range 52) (List.Perm.refl _)

/-! ### Claim C10: cheat frame effect -/

theorem cheatLoop_eq (s : ℕ) (n : ℕ) (row : List Card) :
    cheatLoop s n row = (List.range n).map (fun k => Card.mk s (k + 1) true) ++ row := by
  induction n generalizing row with
  | zero => rfl
  | succ n ih =>
    show cheatLoop s n (Card.mk s (n + 1) true :: row) = _
    rw [ih, List.range_succ]
    simp

theorem cheat_rows_foundation (g : Game) (s : Fin 12) (hs : s.val ≤ 3) :
    (cheat g).rows s
      = (List.range 13).map (fun k => Card.mk s.val (k + 1) true) ++ g.rows s := by
  have hloop : (cheat g).rows s = cheatLoop s.val 13 (g.rows s) := by
    fin_cases s <;>
      first
        | exact absurd hs (by decide)
        | (simp +decide [cheat, cheatSuit, Function.update_apply]; try rfl)
  rw [hloop, cheatLoop_eq]

theorem cheat_rows_other (g : Game) (s : Fin 12) (hs : 4 ≤ s.val) :
    (cheat g).rows s = g.rows s := by
  fin_cases s <;>
    first
      | exact absurd hs (by decide)
      | simp +decide [cheat, cheatSuit, Function.update_apply]

theorem boardMultiset_update_add (g : Game) (a : Fin 12) (l : List Card) :
    boardMultiset { rows := Function.update g.rows a l } + projM (g.rows a)
      = boardMultiset g + projM l := by
  show Finset.univ.sum (fun i => projM (Function.update g.rows a l i)) + _
      = Finset.univ.sum (fun i => projM (g.rows i)) + _
  rw [projM_update,
    Finset.sum_update_of_mem (Finset.mem_univ a) (fun i => projM (g.rows i)) (projM l),
    Finset.sdiff_singleton_eq_erase,
    ← Finset.add_sum_erase Finset.univ (fun i => projM (g.rows i)) (Finset.mem_univ a)]
  abel

theorem boardMultiset_cheatSuit (g : Game) (s : Fin 12) :
    boardMultiset (cheatSuit g s)
      = boardMultiset g
        + projM ((List.range 13).map (fun k => Card.mk s.val (k + 1) true)) := by
  have h1 := boardMultiset_update_add g s (cheatLoop s.val 13 (g.rows s))
  rw [cheatLoop_eq, projM_append, ← add_assoc] at h1
  exact add_right_cancel h1

theorem boardMultiset_cheat (g : Game) :
    boardMultiset (cheat g)
      = boardMultiset g
        + (projM ((List.range 13).map (fun k => Card.mk 0 (k + 1) true))
          + projM ((List.range 13).map (fun k => Card.mk 1 (k + 1) true))
          + projM ((List.range 13).map (fun k => Card.mk 2 (k + 1) true))
          + projM ((List.range 13).map (fun k => Card.mk 3 (k + 1) true))) := by
  show boardMultiset (cheatSuit (cheatSuit (cheatSuit (cheatSuit g 0) 1) 2) 3) = _
  rw [boardMultiset_cheatSuit, boardMultiset_cheatSuit, boardMultiset_cheatSuit,
    boardMultiset_cheatSuit,
    show ((0 : Fin 12)).val = 0 from rfl, show ((1 : Fin 12)).val = 1 from rfl,
    show ((2 : Fin 12)).val = 2 from rfl, show ((3 : Fin 12)).val = 3 from rfl]
  abel

theorem cheat_new_cards_projM :
    projM ((List.range 13).map (fun k => Card.mk 0 (k + 1) true))
      + projM ((List.range 13).map (fun k => Card.mk 1 (k + 1) true))
      + projM ((List.range 13).map (fun k => Card.mk 2 (k + 1) true))
      + projM ((List.range 13).map (fun k => Card.mk 3 (k + 1) true))
      = fullDeckM := by decide

theorem new_game_foundation_empty (debug : Bool) (rn : List ℕ) (s : Fin 12)
    (hs : s.val ≤ 3) : (new_game debug rn).rows s = [] := by
  show (if 4 ≤ s.val then flipHead (dealRows (get_shuffled_deck debug rn) s)
      else dealRows (get_shuffled_deck debug rn) s) = []
  rw [if_neg (by omega)]
  unfold dealRows
  split_ifs <;> first | rfl | omega

/-- Claim C10: `cheat` only prepends, to each foundation row 0-3, the
13 visible cards of that row's suit with rank 1 at the head and rank 13
innermost, leaving rows 4-11 and all existing cards untouched; on a
freshly dealt board the result holds 104 cards — every (suit, rank)
combination exactly twice — and `check_game_over` returns true. -/
theorem C10_cheat_frame (debug : Bool) (rn : List ℕ)
    (h : rn.Perm (List.range 52)) (g : Game) :
    (∀ s : Fin 12, s.val ≤ 3 →
      (cheat g).rows s
        = (List.range 13).map (fun k => Card.mk s.val (k + 1) true) ++ g.rows s)
    ∧ (∀ s : Fin 12, 4 ≤ s.val → (cheat g).rows s = g.rows s)
    ∧ boardMultiset (cheat (new_game debug rn)) = fullDeckM + fullDeckM
    ∧ (boardMultiset (cheat (new_game debug rn))).card = 104
    ∧ check_game_over (cheat (new_game debug rn)) = true := by
  have hmult : boardMultiset (cheat (new_game debug rn)) = fullDeckM + fullDeckM := by
    rw [boardMultiset_cheat, boardMultiset_new_game debug rn h, cheat_new_cards_projM]
  refine ⟨fun s hs => cheat_rows_foundation g s hs, fun s hs => cheat_rows_other g s hs,
    hmult, ?_, ?_⟩
  · rw [hmult, Multiset.card_add]
    decide
  · have hrow : ∀ s : Fin 12, s.val ≤ 3 → ((cheat (new_game debug rn)).rows s).length = 13 := by
      intro s hs
      rw [cheat_rows_foundation _ s hs, new_game_foundation_empty debug rn s hs]
      simp
    unfold check_game_over
    rw [hrow 0 (by decide), hrow 1 (by decide), hrow 2 (by decide), hrow 3 (by decide)]
    decide

/-- Witness for C10 at the identity shuffle and the dealt board. -/
theorem C10_witness :
    (∀ s : Fin 12, s.val ≤ 3 →
      (cheat dealtGame).rows s
        = (List.range 13).map (fun k => Card.mk s.val (k + 1) true) ++ dealtGame.rows s)
    ∧ (∀ s : Fin 12, 4 ≤ s.val → (cheat dealtGame).rows s = dealtGame.rows s)
    ∧ boardMultiset (cheat (new_game false (List.range 52))) = fullDeckM + fullDeckM
    ∧ (boardMultiset (cheat (new_game false (List.range 52)))).card = 104
    ∧ check_game_over (cheat (new_game false (List.range 52))) = true :=
  C10_cheat_frame false (List.range 52) (List.Perm.refl _) dealtGame

/-- Witness for C9's amended theorem at the dealt board. -/
theorem C9_witness :
    (check_move_valid false dealtGame 0 0 0 = MoveResult.ok
      ∨ ∃ v, check_move_valid false dealtGame 0 0 0 = MoveResult.violation v)
    ∧ (((0 : ℤ) ≤ 0 ∧ (0 : ℤ) ≤ 11) → ((0 : ℤ) ≤ 0 ∧ (0 : ℤ) ≤ 11) →
        (check_move_valid false dealtGame 0 0 0
            = MoveResult.violation Violation.CardIndexOutOfBounds
          ↔ (0 : ℤ) > ((dealtGame.rows (rowIdx 0)).length : ℤ) - 1)) :=
  C9_totality false dealtGame 0 0 0 (by decide)

end Soulytear
